import Mathlib

/-!
Shallow embedding of the ProxyJ proxy-pool manager (src/src/states.py and
src/src/proxyj.py).

Conventions of the embedding:
* Wall-clock time (`time.time()`) is an explicit `now : Int` parameter, held
  fixed for the duration of a single operation.
* A Python proxy object is a `ManagedProxy`: its `ip` plus its `_state`
  attribute, which is `none` while the attribute has never been assigned.
* Object identity is modelled by a heap: `Heap := List ManagedProxy`, and the
  pool holds handles (`Nat` indices into the heap), mirroring the Python list
  of object references.
* Python `dict[str, ...]` is an insertion-ordered association list; insertion
  of an existing key updates in place, of a new key appends at the end.
* Raised exceptions become `PyError` values; `warnings.warn` output is
  collected in a returned list of `PyWarning`s.
-/

/-- Lifecycle states from states.py. `Exhausted` and `Quarantined` carry
their `recovery_time` (set at construction as now + timeout). -/
inductive ProxyState where
  | Pristine : ProxyState
  | Ready : ProxyState
  | Issued : ProxyState
  | Exhausted : Int → ProxyState
  | Quarantined : Int → ProxyState
  | Broken : ProxyState
deriving DecidableEq, Repr

/-- The `value` property of each state. Only `Quarantined.value` reads the
clock: `100 if self.recovery_time > time.time() else 400`. -/
def ProxyState.value (s : ProxyState) (now : Int) : Int :=
  match s with
  | .Pristine => 0
  | .Ready => 100
  | .Issued => 200
  | .Exhausted _ => 300
  | .Quarantined r => if r > now then 100 else 400
  | .Broken => 500

/-- The `self_check` hook. Base class returns `self`; `Exhausted` overrides:
`return self if self.recovery_time > time.time() else Ready()`. -/
def ProxyState.self_check (s : ProxyState) (now : Int) : ProxyState :=
  match s with
  | .Exhausted r => if r > now then .Exhausted r else .Ready
  | s => s

/-- The `change_to` hook. Base class returns `new_state`; `Quarantined`
overrides: an incoming `Quarantined` is escalated to `Broken()`. -/
def ProxyState.change_to (s : ProxyState) (new_state : ProxyState) : ProxyState :=
  match s, new_state with
  | .Quarantined _, .Quarantined _ => .Broken
  | _, ns => ns

/-- Exceptions raised by the code. `noProxyLeft` carries the message string,
since `get_one` raises `NoProxyLeftException` with two distinct messages. -/
inductive PyError where
  | noProxyLeft : String → PyError
  | providerProtocolError : PyError
  | stateNotInitialized : PyError
  | missingAttribute : String → PyError
deriving DecidableEq, Repr

/-- The `NoProxyLeftException` raised when the pool has no entries. -/
def pool_empty_error : PyError :=
  PyError.noProxyLeft "The pool is empty. Check providers"

/-- The `NoProxyLeftException` raised when no pooled proxy is eligible. -/
def none_available_error : PyError :=
  PyError.noProxyLeft "No proxy available at that moment"

/-- Warnings emitted via `warnings.warn` (category `NoSuchProviderWarning`). -/
inductive PyWarning where
  | noSuchProvider : String → PyWarning
deriving DecidableEq, Repr

/-- A proxy object: immutable address plus the mutable `_state` attribute,
`none` when the attribute has never been set. -/
structure ManagedProxy where
  ip : String
  _state : Option ProxyState
deriving DecidableEq, Repr

/-- ProxyStateDescriptor.__get__: fails if `_state` was never set, otherwise
persists `current_state.self_check()` and returns it. -/
def ManagedProxy.readState (p : ManagedProxy) (now : Int) :
    Except PyError (ProxyState × ManagedProxy) :=
  match p._state with
  | none => Except.error PyError.stateNotInitialized
  | some s =>
      let s2 := s.self_check now
      Except.ok (s2, { p with _state := some s2 })

/-- ProxyStateDescriptor.__set__: arbitrates through the current state when
one exists, otherwise establishes `value` directly. -/
def ManagedProxy.writeState (p : ManagedProxy) (value : ProxyState) : ManagedProxy :=
  match p._state with
  | none => { p with _state := some value }
  | some s => { p with _state := some (s.change_to value) }

/-- The heap of proxy objects; pool entries are indices into it. -/
abbrev Heap := List ManagedProxy

/-- Read `p.state` for the proxy object at handle `h`, persisting the
self-checked state into the heap. -/
def heapReadState (heap : Heap) (h : Nat) (now : Int) :
    Except PyError (ProxyState × Heap) :=
  match heap[h]? with
  | none => Except.error PyError.stateNotInitialized
  | some p =>
      match p.readState now with
      | Except.error e => Except.error e
      | Except.ok (s, p2) => Except.ok (s, heap.set h p2)

/-- A provider as seen through Python duck typing: it may or may not expose a
`name` attribute and a `get_list` method (`get_list` yields pool handles). -/
structure RawProvider where
  name? : Option String
  get_list? : Option (List Nat)
deriving DecidableEq, Repr

/-- Insertion-ordered dict update: existing key updated in place, new key
appended. -/
def dictInsert (d : List (String × α)) (k : String) (v : α) : List (String × α) :=
  if d.any (fun p => p.1 = k) then
    d.map (fun p => if p.1 = k then (k, v) else p)
  else
    d ++ [(k, v)]

/-- Membership test (`k in d`). -/
def dictContains (d : List (String × α)) (k : String) : Bool :=
  d.any (fun p => p.1 = k)

/-- Python `d.pop(k)`: the removed value and the remaining dict, or `none`
(`KeyError`) when the key is absent. -/
def dictPop (d : List (String × α)) (k : String) : Option (α × List (String × α)) :=
  match d.find? (fun p => p.1 = k) with
  | none => none
  | some p => some (p.2, d.filter (fun q => ¬ q.1 = k))

/-- The registry state of a constructed `ProxyJ` instance. -/
structure ProxyJ where
  _pool : List Nat
  _switched_off : List (String × RawProvider)
  _providers : List (String × RawProvider)
  _state_threshold : Int
deriving DecidableEq, Repr

/-- Iterate the providers dict values and `extend` the pool with each
`get_list()` result; a provider without `get_list` raises `AttributeError`
after the pool has been extended by the earlier providers. -/
def extendPool : List RawProvider → List Nat → List Nat × Option PyError
  | [], acc => (acc, none)
  | s :: rest, acc =>
      match s.get_list? with
      | none => (acc, some (PyError.missingAttribute "get_list"))
      | some l => extendPool rest (acc ++ l)

/-- ProxyJ._fill_pool: clear the pool and re-extend it from every active
provider, in dict order. On an `AttributeError` the partially refilled pool
is kept (the Python exception propagates after the in-place mutation). -/
def ProxyJ.fill_pool (pj : ProxyJ) : ProxyJ × Option PyError :=
  let r := extendPool (pj._providers.map (fun p => p.2)) []
  ({ pj with _pool := r.1 }, r.2)

/-- The `providers` argument of ProxyJ.__init__: a single (non-iterable)
provider or an iterable of providers. -/
inductive ProvidersArg where
  | single : RawProvider → ProvidersArg
  | collection : List RawProvider → ProvidersArg

/-- The dict comprehension `{s.name: s for s in providers}`: raises
`AttributeError` at the first element lacking `name` (note `get_list` is
never consulted). -/
def buildProvidersDict : List RawProvider → List (String × RawProvider) →
    Option (List (String × RawProvider))
  | [], acc => some acc
  | s :: rest, acc =>
      match s.name? with
      | none => none
      | some n => buildProvidersDict rest (dictInsert acc n s)

/-- ProxyJ.__init__. Collection case: the dict comprehension either succeeds
or raises `AttributeError`, re-raised as `provider_protocol_error`. Single
(non-iterable) case: the comprehension raises `TypeError` before the
`self._providers` attribute is ever bound, so the fallback statement
`self._providers[providers.name] = providers` evaluates the unbound
`self._providers` and raises `AttributeError`, which the inner handler
re-raises as `provider_protocol_error` — regardless of whether the provider
itself has `name` or `get_list`. Note `__init__` never calls `_fill_pool`,
so `_pool` is left empty. -/
def ProxyJ.init (providers : ProvidersArg) (threshold : Int) : Except PyError ProxyJ :=
  match providers with
  | .single _ =>
      let providersAttr : Option (List (String × RawProvider)) := none
      match providersAttr with
      | none => Except.error PyError.providerProtocolError
      | some d =>
          Except.ok { _pool := [], _switched_off := [], _providers := d,
                      _state_threshold := threshold }
  | .collection ps =>
      match buildProvidersDict ps [] with
      | none => Except.error PyError.providerProtocolError
      | some d =>
          Except.ok { _pool := [], _switched_off := [], _providers := d,
                      _state_threshold := threshold }

/-- ProxyJ._mix_pool: the body is `pass`. -/
def ProxyJ.mix_pool (pj : ProxyJ) : ProxyJ := pj

/-- The scanning loop of ProxyJ.get_one, threading the heap (each `p.state`
read persists the self-checked state) and the registry (through the
`_mix_pool` call). `n` is `pool_length`, captured before the loop. -/
def get_one_aux (th now : Int) (n : Nat) :
    List Nat → Nat → ProxyJ → Heap → Except PyError Nat × ProxyJ × Heap
  | [], _, pjc, hp =>
      if n < 1 then (Except.error pool_empty_error, pjc, hp)
      else (Except.error none_available_error, pjc, hp)
  | h :: rest, i, pjc, hp =>
      match heapReadState hp h now with
      | Except.error e => (Except.error e, pjc, hp)
      | Except.ok (s, hp2) =>
          if s.value now < th then
            (Except.ok h, (if i > n / 3 then pjc.mix_pool else pjc), hp2)
          else
            get_one_aux th now n rest (i + 1) pjc hp2

/-- ProxyJ.get_one: scan `_pool` in order and return the first handle whose
post-self-check state value is below the threshold; raise
`NoProxyLeftException` (with one of two messages) otherwise. -/
def ProxyJ.get_one (pj : ProxyJ) (heap : Heap) (now : Int) :
    Except PyError Nat × ProxyJ × Heap :=
  get_one_aux pj._state_threshold now pj._pool.length pj._pool 0 pj heap

/-- ProxyJ.add_provider: insert by `provider.name` into the active dict and
rebuild the pool. A provider without `name` raises a bare `AttributeError`. -/
def ProxyJ.add_provider (pj : ProxyJ) (provider : RawProvider) :
    ProxyJ × Option PyError :=
  match provider.name? with
  | none => (pj, some (PyError.missingAttribute "name"))
  | some n =>
      ProxyJ.fill_pool { pj with _providers := dictInsert pj._providers n provider }

/-- ProxyJ.del_provider: `self._providers.pop(name, None)` then rebuild. -/
def ProxyJ.del_provider (pj : ProxyJ) (name : String) : ProxyJ × Option PyError :=
  match dictPop pj._providers name with
  | none => ProxyJ.fill_pool pj
  | some (_, d2) => ProxyJ.fill_pool { pj with _providers := d2 }

/-- ProxyJ.switch_provider_off: move `name` from active to switched-off and
rebuild; on `KeyError` emit a `NoSuchProviderWarning` (two messages) and do
nothing else. -/
def ProxyJ.switch_provider_off (pj : ProxyJ) (name : String) :
    ProxyJ × List PyWarning × Option PyError :=
  match dictPop pj._providers name with
  | some (v, d2) =>
      let r := ProxyJ.fill_pool
        { pj with _providers := d2,
                  _switched_off := dictInsert pj._switched_off name v }
      (r.1, [], r.2)
  | none =>
      if dictContains pj._switched_off name then
        (pj, [PyWarning.noSuchProvider
                ("The provider " ++ name ++ " is already switched off")], none)
      else
        (pj, [PyWarning.noSuchProvider
                ("No such provider " ++ name ++
                 " to switch off. At least at this given point of time.")], none)

/-- ProxyJ.switch_provider_on: symmetric to switch_provider_off. -/
def ProxyJ.switch_provider_on (pj : ProxyJ) (name : String) :
    ProxyJ × List PyWarning × Option PyError :=
  match dictPop pj._switched_off name with
  | some (v, d2) =>
      let r := ProxyJ.fill_pool
        { pj with _switched_off := d2,
                  _providers := dictInsert pj._providers name v }
      (r.1, [], r.2)
  | none =>
      if dictContains pj._providers name then
        (pj, [PyWarning.noSuchProvider
                ("The provider " ++ name ++ " is already switched on")], none)
      else
        (pj, [PyWarning.noSuchProvider
                ("No such provider " ++ name ++
                 " to switch on. At least at this given point of time.")], none)

/-- Concrete provider "a" yielding two pool handles (test fixture). -/
def provA : RawProvider := { name? := some "a", get_list? := some [0, 1] }

/-- Concrete provider "b" yielding three pool handles (test fixture). -/
def provB : RawProvider := { name? := some "b", get_list? := some [2, 3, 4] }

/-- Concrete provider exposing `name` but no `get_list` (test fixture). -/
def provNoGetList : RawProvider := { name? := some "q", get_list? := none }

/-- Heap of five proxies, all in `Ready` (ordinal 100), as in the end-to-end
scenario of the spec (test fixture). -/
def heapFiveReady : Heap :=
  List.replicate 5 { ip := "198.51.100.7", _state := some ProxyState.Ready }

/-- The heap obtained after `p.state` has been read (and its self-checked
state persisted) for each listed handle in order; a failing read leaves the
heap as it stands. -/
def heapAfterScan (now : Int) : Heap → List Nat → Heap
  | heap, [] => heap
  | heap, h :: rest =>
      match heapReadState heap h now with
      | Except.error _ => heap
      | Except.ok (_, heap2) => heapAfterScan now heap2 rest

/-- The health ordinal observed by reading `p.state.value` for handle `h`,
when the read succeeds. -/
def heapReadValue (heap : Heap) (h : Nat) (now : Int) : Option Int :=
  match heapReadState heap h now with
  | Except.error _ => none
  | Except.ok (s, _) => some (s.value now)

/-- Every listed handle refers to a proxy object whose `_state` attribute has
been set. -/
def statesSet (heap : Heap) (l : List Nat) : Prop :=
  ∀ h ∈ l, ∃ p s, heap[h]? = some p ∧ p._state = some s

/-- `h2` differs from `h1` at most by replacing some proxies' states with
their own self-check at instant `now` (addresses untouched). -/
def HeapEvolves (now : Int) (h1 h2 : Heap) : Prop :=
  ∀ m : Nat, h2[m]? = h1[m]? ∨
    ∃ p s, h1[m]? = some p ∧ p._state = some s ∧
      h2[m]? = some { ip := p.ip, _state := some (s.self_check now) }

/-- No provider name is present in both the active and the switched-off map. -/
def MapsDisjoint (pj : ProxyJ) : Prop :=
  ∀ k, dictContains pj._providers k = true → dictContains pj._switched_off k = false

/-- Registry states reachable by construction followed by any sequence of
add_provider / del_provider / switch_provider_off / switch_provider_on. -/
inductive Reachable : ProxyJ → Prop where
  | init : ∀ (arg : ProvidersArg) (th : Int) (pj : ProxyJ),
      ProxyJ.init arg th = Except.ok pj → Reachable pj
  | add : ∀ (pj : ProxyJ) (prov : RawProvider), Reachable pj →
      Reachable (pj.add_provider prov).1
  | del : ∀ (pj : ProxyJ) (nm : String), Reachable pj →
      Reachable (pj.del_provider nm).1
  | disable : ∀ (pj : ProxyJ) (nm : String), Reachable pj →
      Reachable (pj.switch_provider_off nm).1
  | enable : ∀ (pj : ProxyJ) (nm : String), Reachable pj →
      Reachable (pj.switch_provider_on nm).1

/-- Like `Reachable`, but `add_provider` is only invoked with providers whose
name is not currently switched off. -/
inductive ReachableSafe : ProxyJ → Prop where
  | init : ∀ (arg : ProvidersArg) (th : Int) (pj : ProxyJ),
      ProxyJ.init arg th = Except.ok pj → ReachableSafe pj
  | add : ∀ (pj : ProxyJ) (prov : RawProvider), ReachableSafe pj →
      (∀ nm, prov.name? = some nm → dictContains pj._switched_off nm = false) →
      ReachableSafe (pj.add_provider prov).1
  | del : ∀ (pj : ProxyJ) (nm : String), ReachableSafe pj →
      ReachableSafe (pj.del_provider nm).1
  | disable : ∀ (pj : ProxyJ) (nm : String), ReachableSafe pj →
      ReachableSafe (pj.switch_provider_off nm).1
  | enable : ∀ (pj : ProxyJ) (nm : String), ReachableSafe pj →
      ReachableSafe (pj.switch_provider_on nm).1

/-- Freshly constructed registry holding provider "a" only (test fixture). -/
def c7pj0 : ProxyJ :=
  { _pool := [], _switched_off := [], _providers := [("a", provA)],
    _state_threshold := 250 }

/-- The fixture registry after `switch_provider_off("a")`. -/
def c7pj1 : ProxyJ := (c7pj0.switch_provider_off "a").1

/-- The fixture registry after subsequently re-adding provider "a" via
`add_provider`. -/
def c7pj2 : ProxyJ := (c7pj1.add_provider provA).1

/-- Registry as constructed from the two end-to-end providers (test
fixture): what `ProxyJ.init` actually returns. -/
def pjC5 : ProxyJ :=
  { _pool := [], _switched_off := [],
    _providers := [("a", provA), ("b", provB)], _state_threshold := 250 }

/-- Registry with no providers and an empty pool (test fixture). -/
def pjEmpty : ProxyJ :=
  { _pool := [], _switched_off := [], _providers := [], _state_threshold := 250 }

/-- Registry whose pool holds the single handle 0 (test fixture). -/
def pjOne : ProxyJ :=
  { _pool := [0], _switched_off := [], _providers := [], _state_threshold := 250 }

/-- Heap with one Ready proxy at handle 0 (test fixture). -/
def heapOneReady : Heap := [{ ip := "198.51.100.9", _state := some ProxyState.Ready }]

/-- The self-check hook is idempotent at a fixed instant. -/
theorem ProxyState.self_check_idem (s : ProxyState) (now : Int) :
    (s.self_check now).self_check now = s.self_check now := by
  cases s with
  | Exhausted r =>
      by_cases h : r > now
      · simp [ProxyState.self_check, h]
      · simp [ProxyState.self_check, h]
  | Pristine => rfl
  | Ready => rfl
  | Issued => rfl
  | Quarantined r => rfl
  | Broken => rfl

/-- C3: writing a Quarantined state to a ManagedProxy whose current state is
Quarantined stores Broken; writing a Quarantined state to a ManagedProxy in
any non-Quarantined current state stores that Quarantined state. -/
theorem writeState_quarantined_escalation (p : ManagedProxy) (s : ProxyState)
    (r2 : Int) (hcur : p._state = some s) :
    ((∃ r, s = ProxyState.Quarantined r) →
      (p.writeState (ProxyState.Quarantined r2))._state = some ProxyState.Broken) ∧
    ((∀ r, s ≠ ProxyState.Quarantined r) →
      (p.writeState (ProxyState.Quarantined r2))._state =
        some (ProxyState.Quarantined r2)) := by
  constructor
  · rintro ⟨r, rfl⟩
    simp [ManagedProxy.writeState, hcur, ProxyState.change_to]
  · intro hne
    cases s with
    | Quarantined r => exact absurd rfl (hne r)
    | Pristine => simp [ManagedProxy.writeState, hcur, ProxyState.change_to]
    | Ready => simp [ManagedProxy.writeState, hcur, ProxyState.change_to]
    | Issued => simp [ManagedProxy.writeState, hcur, ProxyState.change_to]
    | Exhausted r => simp [ManagedProxy.writeState, hcur, ProxyState.change_to]
    | Broken => simp [ManagedProxy.writeState, hcur, ProxyState.change_to]

/-- Witness for C3 at a concrete quarantined proxy. -/
theorem writeState_quarantined_escalation_witness :
    (ManagedProxy.writeState { ip := "203.0.113.1", _state := some (ProxyState.Quarantined 5) }
        (ProxyState.Quarantined 9))._state = some ProxyState.Broken :=
  (writeState_quarantined_escalation
    { ip := "203.0.113.1", _state := some (ProxyState.Quarantined 5) }
    (ProxyState.Quarantined 5) 9 rfl).1 ⟨5, rfl⟩

/-- C4: an Exhausted proxy whose recovery deadline has elapsed reads as Ready
and persists Ready, and every subsequent read (at any instant, absent a new
assignment) again yields Ready with the state unchanged; while the deadline
has not passed, reading leaves the proxy in Exhausted. -/
theorem exhausted_promotes_to_ready (p : ManagedProxy) (r now now2 : Int)
    (hcur : p._state = some (ProxyState.Exhausted r)) :
    (r ≤ now →
      p.readState now =
        Except.ok (ProxyState.Ready, { p with _state := some ProxyState.Ready }) ∧
      ManagedProxy.readState { p with _state := some ProxyState.Ready } now2 =
        Except.ok (ProxyState.Ready, { p with _state := some ProxyState.Ready })) ∧
    (now < r → p.readState now = Except.ok (ProxyState.Exhausted r, p)) := by
  constructor
  · intro hle
    constructor
    · simp [ManagedProxy.readState, hcur, ProxyState.self_check, not_lt.2 hle]
    · simp [ManagedProxy.readState, ProxyState.self_check]
  · intro hlt
    cases p with
    | mk ip st =>
        simp only [ManagedProxy.mk.injEq] at hcur
        simp [ManagedProxy.readState, hcur, ProxyState.self_check, hlt]

/-- Witness for C4 at a concrete exhausted proxy with an elapsed deadline. -/
theorem exhausted_promotes_to_ready_witness :
    ManagedProxy.readState { ip := "203.0.113.2", _state := some (ProxyState.Exhausted 3) } 7 =
      Except.ok (ProxyState.Ready,
        { ip := "203.0.113.2", _state := some ProxyState.Ready }) ∧
    ManagedProxy.readState { ip := "203.0.113.2", _state := some ProxyState.Ready } 11 =
      Except.ok (ProxyState.Ready,
        { ip := "203.0.113.2", _state := some ProxyState.Ready }) :=
  (exhausted_promotes_to_ready
    { ip := "203.0.113.2", _state := some (ProxyState.Exhausted 3) }
    3 7 11 rfl).1 (by decide)

/-- C9: reading a ManagedProxy whose `_state` attribute was never set fails
with the configuration AttributeError; the first write establishes the
proposed state verbatim, bypassing arbitration. -/
theorem state_accessor_first_use (p : ManagedProxy) (v : ProxyState) (now : Int)
    (hnone : p._state = none) :
    p.readState now = Except.error PyError.stateNotInitialized ∧
    (p.writeState v)._state = some v := by
  constructor
  · simp [ManagedProxy.readState, hnone]
  · simp [ManagedProxy.writeState, hnone]

/-- Witness for C9 at a concrete never-initialized proxy. -/
theorem state_accessor_first_use_witness :
    ManagedProxy.readState { ip := "203.0.113.3", _state := none } 0 =
      Except.error PyError.stateNotInitialized ∧
    (ManagedProxy.writeState { ip := "203.0.113.3", _state := none }
        (ProxyState.Quarantined 4))._state = some (ProxyState.Quarantined 4) :=
  state_accessor_first_use { ip := "203.0.113.3", _state := none }
    (ProxyState.Quarantined 4) 0 rfl

/-- Characterization of dict membership. -/
theorem dictContains_eq_true {α : Type} (d : List (String × α)) (k : String) :
    dictContains d k = true ↔ ∃ p ∈ d, p.1 = k := by
  simp [dictContains, List.any_eq_true]

/-- A key present after a dict insertion was present before or is the
inserted key. -/
theorem mem_dictInsert {α : Type} (d : List (String × α)) (k k' : String) (v : α)
    (h : dictContains (dictInsert d k v) k' = true) :
    dictContains d k' = true ∨ k' = k := by
  rw [dictContains_eq_true] at h
  obtain ⟨p, hp, hk⟩ := h
  unfold dictInsert at hp
  by_cases hc : d.any (fun p => p.1 = k) = true
  · rw [if_pos hc] at hp
    rw [List.mem_map] at hp
    obtain ⟨q, hq, rfl⟩ := hp
    by_cases hqk : q.1 = k
    · right
      rw [if_pos hqk] at hk
      exact hk.symm ▸ rfl
    · left
      rw [if_neg hqk] at hk
      exact (dictContains_eq_true d k').2 ⟨q, hq, hk⟩
  · rw [if_neg hc] at hp
    rw [List.mem_append] at hp
    rcases hp with hp | hp
    · left
      exact (dictContains_eq_true d k').2 ⟨p, hp, hk⟩
    · right
      rw [List.mem_singleton] at hp
      subst hp
      exact hk.symm

/-- A key present after filtering out `nm` was present before and differs
from `nm`. -/
theorem mem_dictFilter {α : Type} (d : List (String × α)) (nm k : String)
    (h : dictContains (d.filter (fun q => ¬ q.1 = nm)) k = true) :
    dictContains d k = true ∧ ¬ k = nm := by
  rw [dictContains_eq_true] at h
  obtain ⟨p, hp, hk⟩ := h
  rw [List.mem_filter] at hp
  obtain ⟨hpd, hpne⟩ := hp
  refine ⟨(dictContains_eq_true d k).2 ⟨p, hpd, hk⟩, ?_⟩
  intro hkn
  subst hkn
  simp [hk] at hpne

/-- The popped key is gone from the filtered remainder. -/
theorem dictContains_filter_self {α : Type} (d : List (String × α)) (nm : String) :
    dictContains (d.filter (fun q => ¬ q.1 = nm)) nm = false := by
  rw [← Bool.not_eq_true]
  intro h
  exact (mem_dictFilter d nm nm h).2 rfl

/-- Inversion for a successful `dictPop`: the remainder is the filtered
dict. -/
theorem dictPop_eq_some {α : Type} (d : List (String × α)) (k : String) (v : α)
    (d2 : List (String × α)) (h : dictPop d k = some (v, d2)) :
    d2 = d.filter (fun q => ¬ q.1 = k) := by
  unfold dictPop at h
  cases hf : d.find? (fun p => p.1 = k) with
  | none => rw [hf] at h; cases h
  | some p =>
      rw [hf] at h
      simp only [Option.some.injEq, Prod.mk.injEq] at h
      exact h.2.symm

/-- A `dictPop` miss means the key is absent. -/
theorem dictPop_eq_none {α : Type} (d : List (String × α)) (k : String)
    (h : dictPop d k = none) : dictContains d k = false := by
  unfold dictPop at h
  cases hf : d.find? (fun p => p.1 = k) with
  | some p => rw [hf] at h; cases h
  | none =>
      rw [← Bool.not_eq_true]
      intro hc
      obtain ⟨p, hp, hk⟩ := (dictContains_eq_true d k).1 hc
      have := List.find?_eq_none.1 hf p hp
      simp [hk] at this

/-- Refilling the pool does not touch the active map. -/
theorem fill_pool_providers (pj : ProxyJ) :
    (pj.fill_pool).1._providers = pj._providers := rfl

/-- Refilling the pool does not touch the switched-off map. -/
theorem fill_pool_switched_off (pj : ProxyJ) :
    (pj.fill_pool).1._switched_off = pj._switched_off := rfl

/-- A successful construction starts with an empty switched-off map. -/
theorem init_switched_off_nil (arg : ProvidersArg) (th : Int) (pj : ProxyJ)
    (h : ProxyJ.init arg th = Except.ok pj) : pj._switched_off = [] := by
  cases arg with
  | single p => simp [ProxyJ.init] at h
  | collection ps =>
      simp only [ProxyJ.init] at h
      cases hb : buildProvidersDict ps [] with
      | none => rw [hb] at h; cases h
      | some d =>
          rw [hb] at h
          simp only [Except.ok.injEq] at h
          rw [← h]

/-- C7 counterexample: construct with provider "a", switch it off, then
re-add it via add_provider — the reached registry has "a" in both the active
and the switched-off map, so the disjointness invariant fails. -/
theorem c7_reachable_maps_overlap : Reachable c7pj2 ∧ ¬ MapsDisjoint c7pj2 := by
  constructor
  · exact Reachable.add c7pj1 provA
      (Reachable.disable c7pj0 "a"
        (Reachable.init (ProvidersArg.collection [provA]) 250 c7pj0 rfl))
  · intro hdis
    have h1 : dictContains c7pj2._providers "a" = true := by decide
    have h2 : dictContains c7pj2._switched_off "a" = true := by decide
    have := hdis "a" h1
    rw [h2] at this
    cases this

/-- C7 amended: the active and switched-off maps stay key-disjoint under
construction, del_provider, switch_provider_off and switch_provider_on, and
under add_provider whenever the added name is not currently switched off. -/
theorem reachable_safe_maps_disjoint (pj : ProxyJ) (h : ReachableSafe pj) :
    MapsDisjoint pj := by
  induction h with
  | init arg th pj hinit =>
      intro k hk
      rw [init_switched_off_nil arg th pj hinit]
      rfl
  | add pj prov _ hside ih =>
      intro k hk
      cases hn : prov.name? with
      | none =>
          simp only [ProxyJ.add_provider, hn] at hk ⊢
          exact ih k hk
      | some nm =>
          simp only [ProxyJ.add_provider, hn, fill_pool_providers,
            fill_pool_switched_off] at hk ⊢
          rcases mem_dictInsert _ _ _ _ hk with hk2 | rfl
          · exact ih k hk2
          · exact hside k hn
  | del pj nm _ ih =>
      intro k hk
      cases hp : dictPop pj._providers nm with
      | none =>
          simp only [ProxyJ.del_provider, hp, fill_pool_providers,
            fill_pool_switched_off] at hk ⊢
          exact ih k hk
      | some vd =>
          obtain ⟨v, d2⟩ := vd
          have hd2 := dictPop_eq_some _ _ _ _ hp
          simp only [ProxyJ.del_provider, hp, fill_pool_providers,
            fill_pool_switched_off] at hk ⊢
          subst hd2
          exact ih k (mem_dictFilter _ _ _ hk).1
  | disable pj nm _ ih =>
      intro k hk
      cases hp : dictPop pj._providers nm with
      | none =>
          cases hc : dictContains pj._switched_off nm with
          | false =>
              simp only [ProxyJ.switch_provider_off, hp, hc] at hk ⊢
              exact ih k hk
          | true =>
              simp only [ProxyJ.switch_provider_off, hp, hc] at hk ⊢
              exact ih k hk
      | some vd =>
          obtain ⟨v, d2⟩ := vd
          have hd2 := dictPop_eq_some _ _ _ _ hp
          simp only [ProxyJ.switch_provider_off, hp, fill_pool_providers,
            fill_pool_switched_off] at hk ⊢
          subst hd2
          obtain ⟨hkp, hkne⟩ := mem_dictFilter _ _ _ hk
          rw [← Bool.not_eq_true]
          intro hcon
          rcases mem_dictInsert _ _ _ _ hcon with h2 | rfl
          · have := ih k hkp
            rw [h2] at this
            cases this
          · exact hkne rfl
  | enable pj nm _ ih =>
      intro k hk
      cases hp : dictPop pj._switched_off nm with
      | none =>
          cases hc : dictContains pj._providers nm with
          | false =>
              simp only [ProxyJ.switch_provider_on, hp, hc] at hk ⊢
              exact ih k hk
          | true =>
              simp only [ProxyJ.switch_provider_on, hp, hc] at hk ⊢
              exact ih k hk
      | some vd =>
          obtain ⟨v, d2⟩ := vd
          have hd2 := dictPop_eq_some _ _ _ _ hp
          simp only [ProxyJ.switch_provider_on, hp, fill_pool_providers,
            fill_pool_switched_off] at hk ⊢
          subst hd2
          rcases mem_dictInsert _ _ _ _ hk with h2 | rfl
          · rw [← Bool.not_eq_true]
            intro hcon
            have := ih k h2
            rw [(mem_dictFilter _ _ _ hcon).1] at this
            cases this
          · exact dictContains_filter_self _ _

/-- Witness for the amended C7 theorem at a concrete constructed registry. -/
theorem reachable_safe_maps_disjoint_witness : MapsDisjoint pjC5 :=
  reachable_safe_maps_disjoint pjC5
    (ReachableSafe.init (ProvidersArg.collection [provA, provB]) 250 pjC5 rfl)

/-- C8: switching off a name that is not active (already switched off, or
registered nowhere) emits a NoSuchProviderWarning, performs no rebuild, and
returns the registry unchanged; doing it again gives the same result. -/
theorem switch_off_unknown_name_noop (pj : ProxyJ) (name : String)
    (habs : dictContains pj._providers name = false) :
    ∃ msg, pj.switch_provider_off name =
        (pj, [PyWarning.noSuchProvider msg], none) ∧
      ProxyJ.switch_provider_off (pj.switch_provider_off name).1 name =
        (pj, [PyWarning.noSuchProvider msg], none) := by
  have hpop : dictPop pj._providers name = none := by
    unfold dictPop
    cases hf : pj._providers.find? (fun p => p.1 = name) with
    | none => rfl
    | some p =>
        have hpred := List.find?_some hf
        have hmem := List.mem_of_find?_eq_some hf
        have : dictContains pj._providers name = true :=
          (dictContains_eq_true _ _).2 ⟨p, hmem, by simpa using hpred⟩
        rw [habs] at this
        cases this
  cases hoff : dictContains pj._switched_off name with
  | true =>
      refine ⟨"The provider " ++ name ++ " is already switched off", ?_, ?_⟩ <;>
        simp [ProxyJ.switch_provider_off, hpop, hoff]
  | false =>
      refine ⟨"No such provider " ++ name ++
        " to switch off. At least at this given point of time.", ?_, ?_⟩ <;>
        simp [ProxyJ.switch_provider_off, hpop, hoff]

/-- Witness for C8 at a registry with no providers at all. -/
theorem switch_off_unknown_name_noop_witness :
    ∃ msg, pjEmpty.switch_provider_off "zz" =
        (pjEmpty, [PyWarning.noSuchProvider msg], none) ∧
      ProxyJ.switch_provider_off (pjEmpty.switch_provider_off "zz").1 "zz" =
        (pjEmpty, [PyWarning.noSuchProvider msg], none) :=
  switch_off_unknown_name_noop pjEmpty "zz" rfl


/-- Reading an initialized state returns and persists its self-check. -/
theorem readState_of_set {p : ManagedProxy} {s0 : ProxyState}
    (hst : p._state = some s0) (now : Int) :
    p.readState now =
      Except.ok (s0.self_check now, { p with _state := some (s0.self_check now) }) := by
  unfold ManagedProxy.readState
  rw [hst]

/-- A heap state read over an initialized entry succeeds with the persisted
self-check. -/
theorem heapReadState_of_set {hp : Heap} {h : Nat} {now : Int}
    {p : ManagedProxy} {s0 : ProxyState}
    (hidx : hp[h]? = some p) (hst : p._state = some s0) :
    heapReadState hp h now =
      Except.ok (s0.self_check now,
        hp.set h { p with _state := some (s0.self_check now) }) := by
  simp only [heapReadState, hidx, readState_of_set hst now]

/-- Inversion for a successful heap state read. -/
theorem heapReadState_ok_inv {hp : Heap} {h : Nat} {now : Int} {s : ProxyState}
    {hp2 : Heap} (hok : heapReadState hp h now = Except.ok (s, hp2)) :
    ∃ p s0, hp[h]? = some p ∧ p._state = some s0 ∧ s = s0.self_check now ∧
      hp2 = hp.set h { p with _state := some s } := by
  cases hidx : hp[h]? with
  | none =>
      unfold heapReadState at hok
      rw [hidx] at hok
      cases hok
  | some p =>
      cases hst : p._state with
      | none =>
          unfold heapReadState ManagedProxy.readState at hok
          rw [hidx] at hok
          simp only [hst] at hok
          cases hok
      | some s0 =>
          rw [heapReadState_of_set hidx hst] at hok
          simp only [Except.ok.injEq, Prod.mk.injEq] at hok
          obtain ⟨hs, hh⟩ := hok
          exact ⟨p, s0, rfl, hst, hs.symm, by rw [← hh, ← hs]⟩

/-- Heap evolution is reflexive. -/
theorem heapEvolves_refl (now : Int) (hp : Heap) : HeapEvolves now hp hp :=
  fun _ => Or.inl rfl

/-- A single persisted state read is a heap evolution. -/
theorem heapEvolves_step {hp hp2 : Heap} {h : Nat} {now : Int} {s : ProxyState}
    (hread : heapReadState hp h now = Except.ok (s, hp2)) :
    HeapEvolves now hp hp2 := by
  obtain ⟨p, s0, hidx, hst, hs, rfl⟩ := heapReadState_ok_inv hread
  intro m
  by_cases hm : h = m
  · subst hm
    right
    refine ⟨p, s0, hidx, hst, ?_⟩
    rw [List.getElem?_set_self (List.getElem?_eq_some.1 hidx).1, hs]
  · left
    exact List.getElem?_set_ne hm

/-- Heap evolutions compose (self-check is idempotent at a fixed instant). -/
theorem heapEvolves_trans {now : Int} {h1 h2 h3 : Heap}
    (a : HeapEvolves now h1 h2) (b : HeapEvolves now h2 h3) :
    HeapEvolves now h1 h3 := by
  intro m
  rcases b m with hb | ⟨p2, s2, hb1, hb2, hb3⟩
  · rw [hb]; exact a m
  · rcases a m with ha | ⟨p, s, ha1, ha2, ha3⟩
    · right
      exact ⟨p2, s2, ha ▸ hb1, hb2, hb3⟩
    · right
      rw [ha3] at hb1
      simp only [Option.some.injEq] at hb1
      subst hb1
      simp only [Option.some.injEq] at hb2
      refine ⟨p, s, ha1, ha2, ?_⟩
      rw [hb3, ← hb2, ProxyState.self_check_idem]

/-- The scanning loop never alters the registry (redistribution is a no-op)
and only evolves the heap by persisted self-checks. -/
theorem get_one_aux_frame (th now : Int) (n : Nat) :
    ∀ (l : List Nat) (i : Nat) (pjc : ProxyJ) (hp : Heap),
      (get_one_aux th now n l i pjc hp).2.1 = pjc ∧
      HeapEvolves now hp (get_one_aux th now n l i pjc hp).2.2 := by
  intro l
  induction l with
  | nil =>
      intro i pjc hp
      rw [get_one_aux]
      by_cases hn : n < 1 <;> simp [hn, heapEvolves_refl]
  | cons h0 rest ih =>
      intro i pjc hp
      rw [get_one_aux]
      cases hread : heapReadState hp h0 now with
      | error e => simp [heapEvolves_refl]
      | ok shp =>
          obtain ⟨s, hp2⟩ := shp
          by_cases hv : s.value now < th
          · simp only [hv, if_true]
            refine ⟨?_, heapEvolves_step hread⟩
            by_cases hi : i > n / 3 <;> simp [hi, ProxyJ.mix_pool]
          · simp only [hv, if_false]
            exact ⟨(ih (i + 1) pjc hp2).1,
              heapEvolves_trans (heapEvolves_step hread) (ih (i + 1) pjc hp2).2⟩

/-- C10: get_one leaves the pool sequence exactly as it was (the
redistribution step `_mix_pool` is a no-op) and changes no proxy state other
than by the read-triggered self-check persisted by the state descriptor; in
particular no proxy is transitioned to Issued by selection. -/
theorem get_one_frame_effect (pj : ProxyJ) (heap : Heap) (now : Int) :
    (pj.get_one heap now).2.1._pool = pj._pool ∧
    HeapEvolves now heap (pj.get_one heap now).2.2 := by
  have h := get_one_aux_frame pj._state_threshold now pj._pool.length pj._pool 0 pj heap
  exact ⟨congrArg ProxyJ._pool h.1, h.2⟩

/-- The scanning loop returns exactly the first handle whose post-self-check
ordinal is below the threshold: every earlier entry read a value at or above
the threshold, and the returned handle's stored state at the moment of
return is below it. -/
theorem get_one_aux_ok_spec (th now : Int) (n : Nat) :
    ∀ (l : List Nat) (i : Nat) (pjc : ProxyJ) (hp : Heap) (h : Nat)
      (pj2 : ProxyJ) (heap2 : Heap),
      get_one_aux th now n l i pjc hp = (Except.ok h, pj2, heap2) →
      ∃ k, k < l.length ∧ l[k]? = some h ∧
        (∃ v, heapReadValue (heapAfterScan now hp (l.take k)) h now = some v ∧
          v < th) ∧
        (∀ j, j < k → ∃ hj w, l[j]? = some hj ∧
          heapReadValue (heapAfterScan now hp (l.take j)) hj now = some w ∧
          th ≤ w) ∧
        (∃ p s, heap2[h]? = some p ∧ p._state = some s ∧ s.value now < th) := by
  intro l
  induction l with
  | nil =>
      intro i pjc hp h pj2 heap2 hrun
      rw [get_one_aux] at hrun
      by_cases hn : n < 1 <;> simp [hn] at hrun
  | cons h0 rest ih =>
      intro i pjc hp h pj2 heap2 hrun
      rw [get_one_aux] at hrun
      cases hread : heapReadState hp h0 now with
      | error e => simp [hread] at hrun
      | ok shp =>
          obtain ⟨s, hp2⟩ := shp
          simp only [hread] at hrun
          by_cases hv : s.value now < th
          · simp only [hv, if_true] at hrun
            simp only [Prod.mk.injEq, Except.ok.injEq] at hrun
            obtain ⟨rfl, hpj, hheap⟩ := hrun
            subst hheap
            obtain ⟨p, s0, hidx, hst, hs, rfl⟩ := heapReadState_ok_inv hread
            refine ⟨0, by simp, by simp, ⟨s.value now, ?_, hv⟩, ?_, ?_⟩
            · simp [heapReadValue, heapAfterScan, hread]
            · intro j hj
              exact absurd hj (Nat.not_lt_zero j)
            · exact ⟨{ p with _state := some s }, s,
                by rw [List.getElem?_set_self (List.getElem?_eq_some.1 hidx).1],
                rfl, hv⟩
          · simp only [hv, if_false] at hrun
            obtain ⟨k, hk, hkh, ⟨v, hv1, hv2⟩, hprev, hfin⟩ :=
              ih (i + 1) pjc hp2 h pj2 heap2 hrun
            refine ⟨k + 1, by simpa using Nat.succ_lt_succ hk,
              by simpa using hkh, ⟨v, ?_, hv2⟩, ?_, hfin⟩
            · simp only [List.take_succ_cons, heapAfterScan, hread]
              exact hv1
            · intro j hj
              cases j with
              | zero =>
                  refine ⟨h0, s.value now, by simp, ?_, not_lt.1 hv⟩
                  simp [heapReadValue, heapAfterScan, hread]
              | succ j2 =>
                  obtain ⟨hj2, w, hja, hjb, hjc⟩ := hprev j2 (Nat.lt_of_succ_lt_succ hj)
                  refine ⟨hj2, w, by simpa using hja, ?_, hjc⟩
                  simp only [List.take_succ_cons, heapAfterScan, hread]
                  exact hjb

/-- C1: get_one scans the pool in order and returns the first entry whose
post-self-check ordinal is strictly below the threshold; every earlier entry
read at or above it, and the returned handle's stored state at the moment of
return has ordinal strictly below the threshold. -/
theorem get_one_returns_first_eligible (pj : ProxyJ) (heap : Heap) (now : Int)
    (h : Nat) (pj2 : ProxyJ) (heap2 : Heap)
    (hrun : pj.get_one heap now = (Except.ok h, pj2, heap2)) :
    ∃ k, k < pj._pool.length ∧ pj._pool[k]? = some h ∧
      (∃ v, heapReadValue (heapAfterScan now heap (pj._pool.take k)) h now =
        some v ∧ v < pj._state_threshold) ∧
      (∀ j, j < k → ∃ hj w, pj._pool[j]? = some hj ∧
        heapReadValue (heapAfterScan now heap (pj._pool.take j)) hj now =
          some w ∧ pj._state_threshold ≤ w) ∧
      (∃ p s, heap2[h]? = some p ∧ p._state = some s ∧
        s.value now < pj._state_threshold) :=
  get_one_aux_ok_spec pj._state_threshold now pj._pool.length pj._pool 0
    pj heap h pj2 heap2 hrun

/-- Witness for C1 at a one-entry Ready pool. -/
theorem get_one_returns_first_eligible_witness :
    ∃ k, k < pjOne._pool.length ∧ pjOne._pool[k]? = some 0 ∧
      (∃ v, heapReadValue (heapAfterScan 0 heapOneReady (pjOne._pool.take k)) 0 0 =
        some v ∧ v < pjOne._state_threshold) ∧
      (∀ j, j < k → ∃ hj w, pjOne._pool[j]? = some hj ∧
        heapReadValue (heapAfterScan 0 heapOneReady (pjOne._pool.take j)) hj 0 =
          some w ∧ pjOne._state_threshold ≤ w) ∧
      (∃ p s, heapOneReady[0]? = some p ∧ p._state = some s ∧
        s.value 0 < pjOne._state_threshold) :=
  get_one_returns_first_eligible pjOne heapOneReady 0 0 pjOne heapOneReady rfl

/-- Restriction of an all-states-set pool to its tail. -/
theorem statesSet_tail {hp : Heap} {h0 : Nat} {l : List Nat}
    (hset : statesSet hp (h0 :: l)) : statesSet hp l :=
  fun h hm => hset h (List.mem_cons_of_mem h0 hm)

/-- A persisted read keeps every listed state initialized. -/
theorem statesSet_preserved {hp hp2 : Heap} {h0 : Nat} {now : Int}
    {s : ProxyState} (hread : heapReadState hp h0 now = Except.ok (s, hp2))
    {l : List Nat} (hset : statesSet hp l) : statesSet hp2 l := by
  obtain ⟨p, s0, hidx, hst, hs, rfl⟩ := heapReadState_ok_inv hread
  intro h hmem
  obtain ⟨q, sq, hq, hsq⟩ := hset h hmem
  by_cases he : h0 = h
  · subst he
    exact ⟨{ p with _state := some s }, s,
      by rw [List.getElem?_set_self (List.getElem?_eq_some.1 hidx).1], rfl⟩
  · exact ⟨q, sq, by rw [List.getElem?_set_ne he]; exact hq, hsq⟩

/-- When every pooled state is initialized, the failing scan raises the
pool-empty message exactly when the captured pool length is zero and the
none-available message otherwise. -/
theorem get_one_aux_error_spec (th now : Int) (n : Nat) :
    ∀ (l : List Nat) (i : Nat) (pjc : ProxyJ) (hp : Heap) (e : PyError)
      (pj2 : ProxyJ) (heap2 : Heap),
      statesSet hp l →
      get_one_aux th now n l i pjc hp = (Except.error e, pj2, heap2) →
      e = if n < 1 then pool_empty_error else none_available_error := by
  intro l
  induction l with
  | nil =>
      intro i pjc hp e pj2 heap2 _ hrun
      rw [get_one_aux] at hrun
      by_cases hn : n < 1
      · rw [if_pos hn] at hrun
        simp only [Prod.mk.injEq, Except.error.injEq] at hrun
        rw [if_pos hn, ← hrun.1]
      · rw [if_neg hn] at hrun
        simp only [Prod.mk.injEq, Except.error.injEq] at hrun
        rw [if_neg hn, ← hrun.1]
  | cons h0 rest ih =>
      intro i pjc hp e pj2 heap2 hset hrun
      obtain ⟨p, s0, hidx, hst⟩ := hset h0 (List.mem_cons_self h0 rest)
      have hread := @heapReadState_of_set hp h0 now p s0 hidx hst
      rw [get_one_aux] at hrun
      simp only [hread] at hrun
      by_cases hv : (s0.self_check now).value now < th
      · simp [hv] at hrun
      · simp only [hv, if_false] at hrun
        exact ih (i + 1) pjc _ e pj2 heap2
          (statesSet_preserved hread (statesSet_tail hset)) hrun

/-- C2: when a scan over initialized states finds no eligible entry, get_one
fails with the pool-empty NoProxyLeftException when the pool length is zero
and with the none-available one otherwise, and the two failures are distinct
error outcomes. -/
theorem get_one_error_classification (pj : ProxyJ) (heap : Heap) (now : Int)
    (e : PyError) (pj2 : ProxyJ) (heap2 : Heap)
    (hset : statesSet heap pj._pool)
    (hrun : pj.get_one heap now = (Except.error e, pj2, heap2)) :
    (pj._pool.length = 0 → e = pool_empty_error) ∧
    (pj._pool.length ≠ 0 → e = none_available_error) ∧
    pool_empty_error ≠ none_available_error := by
  have hcls := get_one_aux_error_spec pj._state_threshold now pj._pool.length
    pj._pool 0 pj heap e pj2 heap2 hset hrun
  refine ⟨?_, ?_, by decide⟩
  · intro h0
    rw [hcls, if_pos (by omega)]
  · intro h0
    rw [hcls, if_neg (by omega)]

/-- Witness for C2 at a registry with an empty pool. -/
theorem get_one_error_classification_witness :
    (pjEmpty._pool.length = 0 → pool_empty_error = pool_empty_error) ∧
    (pjEmpty._pool.length ≠ 0 → pool_empty_error = none_available_error) ∧
    pool_empty_error ≠ none_available_error :=
  get_one_error_classification pjEmpty [] 0 pool_empty_error pjEmpty []
    (by intro h hm; cases hm) rfl

/-- C5 evaluated on the end-to-end scenario: construction with the two
providers succeeds but never fills the pool, so the pool length is 0 (not 5)
and get_one raises the pool-empty NoProxyLeftException instead of returning
an ordinal-100 proxy. -/
theorem construction_leaves_pool_empty :
    ProxyJ.init (ProvidersArg.collection [provA, provB]) 250 = Except.ok pjC5 ∧
    pjC5._pool.length = 0 ∧
    pjC5.get_one heapFiveReady 0 =
      (Except.error pool_empty_error, pjC5, heapFiveReady) :=
  ⟨rfl, rfl, rfl⟩

/-- C6 evaluated on concrete providers: a fully capable single (non-iterable)
provider is always rejected with the protocol error, while a collection
element lacking get_list is accepted — the name is the only capability ever
checked, and only on the collection path. -/
theorem init_capability_check_mismatch :
    ProxyJ.init (ProvidersArg.single provA) 250 =
      Except.error PyError.providerProtocolError ∧
    ProxyJ.init (ProvidersArg.collection [provNoGetList]) 250 =
      Except.ok { _pool := [], _switched_off := [],
                  _providers := [("q", provNoGetList)],
                  _state_threshold := 250 } :=
  ⟨rfl, rfl⟩
